import Mathlib

/-!
# Cedar validator diagnostics: a shallow embedding

This file embeds the diagnostic model of the Cedar policy validator
(`cedar-policy-validator/src/diagnostics/validation_errors.rs`) in Lean 4 and
proves properties of it.  Pure functions from the Rust source are translated
definition-by-definition; data types from sibling crates that the diagnostics
consume (`cedar_policy_core::ast::Expr`, `crate::types::{Type, EntityLUB,
RequestEnv}`) are modelled from the specification, as noted on each
definition.
-/

set_option maxRecDepth 16384

namespace CedarDiag

/-- Modelled from the spec: a source location `{ span, source-text-reference }`
attached to AST nodes (§6 Inputs).  The span is an offset/length pair into the
source text. -/
structure Loc where
  start : Nat
  length : Nat
  src : String
deriving DecidableEq, Repr

/-- Modelled from the spec: an entity is uniquely identified by
`(type, id)` (Glossary). -/
structure EntityUID where
  ty : String
  eid : String
deriving DecidableEq, Repr

/-- Rendering of an entity UID as it appears in diagnostics,
e.g. `Action::"view"`. -/
def EntityUID.render (u : EntityUID) : String :=
  u.ty ++ "::\"" ++ u.eid ++ "\""

/-- Modelled from the spec: an entity LUB is a non-empty set of entity type
names (§3, Glossary); represented as a head name plus the remaining names. -/
structure EntityLUB where
  hd : String
  tl : List String
deriving DecidableEq, Repr

/-- All names of the LUB, in order. -/
def EntityLUB.names (lub : EntityLUB) : List String :=
  lub.hd :: lub.tl

/-- Translation of `EntityLUB::get_single_entity`: the sole member when the
LUB is a singleton. -/
def EntityLUB.get_single_entity : EntityLUB → Option String
  | ⟨h, []⟩ => some h
  | _ => none

/-- Union of two entity LUBs (spec §4.1: `LUB(Entity(A), Entity(B)) =
Entity(A ∪ B)`); duplicates from the right operand are dropped. -/
def EntityLUB.union (a b : EntityLUB) : EntityLUB :=
  ⟨a.hd, a.tl ++ b.names.filter (fun n => !(a.names.contains n))⟩

mutual
/-- Modelled from the spec: the type lattice (§3).  `record` carries the
attribute map as an association list `CAttrs` of
`(name, type, required)` triples together with the open flag. -/
inductive CType where
  | never
  | tTrue
  | tFalse
  | boolean
  | long
  | string
  | set (elem : CType)
  | record (attrs : CAttrs) (isOpen : Bool)
  | entity (lub : EntityLUB)
  | actionEntity (lub : EntityLUB)
  | anyEntity
  | extType (name : String)
deriving DecidableEq, Repr

/-- Modelled from the spec: the attribute map of a record type, a sequence of
`(name, ty, required)` declarations (§3 `AttributeType`). -/
inductive CAttrs where
  | nil
  | cons (name : String) (ty : CType) (required : Bool) (rest : CAttrs)
deriving DecidableEq, Repr
end

/-- Modelled from the spec: the policy variables (§3 Policy AST). -/
inductive Var where
  | principal
  | action
  | resource
  | context
deriving DecidableEq, Repr

/-- Modelled from the spec: literal values appearing in policies (§3). -/
inductive Prim where
  | bool (b : Bool)
  | int (i : Int)
  | string (s : String)
  | entityUID (uid : EntityUID)
deriving DecidableEq, Repr

/-- Modelled from the spec: a fragment of the policy AST (§3), sufficient for
the diagnostics under study.  Each node carries an optional inferred-type
annotation (the `T` of the Rust `Expr<T>` instantiated at `Option<Type>`) and
an optional source location.  Constructors the diagnostics code never
distinguishes (arithmetic, `in`, `is`, `like`, sets, records, extension
calls, …) are not needed by any claim and are omitted; every function below
treats the omitted shapes identically to `ite`/`and`/`or`. -/
inductive Expr where
  | lit (p : Prim) (data : Option CType) (loc : Option Loc)
  | var (v : Var) (data : Option CType) (loc : Option Loc)
  | ite (c t e : Expr) (data : Option CType) (loc : Option Loc)
  | and (a b : Expr) (data : Option CType) (loc : Option Loc)
  | or (a b : Expr) (data : Option CType) (loc : Option Loc)
  | binEq (a b : Expr) (data : Option CType) (loc : Option Loc)
  | getAttr (e : Expr) (attr : String) (data : Option CType) (loc : Option Loc)
  | hasAttr (e : Expr) (attr : String) (data : Option CType) (loc : Option Loc)
deriving DecidableEq, Repr

/-- Accessor corresponding to `Expr::data()`. -/
def Expr.data : Expr → Option CType
  | .lit _ d _ => d
  | .var _ d _ => d
  | .ite _ _ _ d _ => d
  | .and _ _ d _ => d
  | .or _ _ d _ => d
  | .binEq _ _ d _ => d
  | .getAttr _ _ d _ => d
  | .hasAttr _ _ d _ => d

/-- Accessor corresponding to `Expr::source_loc()`. -/
def Expr.source_loc : Expr → Option Loc
  | .lit _ _ l => l
  | .var _ _ l => l
  | .ite _ _ _ _ l => l
  | .and _ _ _ l => l
  | .or _ _ _ l => l
  | .binEq _ _ _ l => l
  | .getAttr _ _ _ l => l
  | .hasAttr _ _ _ l => l

/-- Modelled from the spec: expression identity is syntactic (§4.2, §9 —
"two syntactically identical sub-expressions share capabilities", independent
of where they occur).  Accordingly equality on expressions compares the
expression structure and ignores both the type annotation and the source
location, which is also how `cedar_policy_core::ast::Expr` implements
`PartialEq`. -/
def Expr.eqv : Expr → Expr → Bool
  | .lit p _ _, .lit q _ _ => p == q
  | .var v _ _, .var w _ _ => v == w
  | .ite c₁ t₁ e₁ _ _, .ite c₂ t₂ e₂ _ _ => c₁.eqv c₂ && t₁.eqv t₂ && e₁.eqv e₂
  | .and a₁ b₁ _ _, .and a₂ b₂ _ _ => a₁.eqv a₂ && b₁.eqv b₂
  | .or a₁ b₁ _ _, .or a₂ b₂ _ _ => a₁.eqv a₂ && b₁.eqv b₂
  | .binEq a₁ b₁ _ _, .binEq a₂ b₂ _ _ => a₁.eqv a₂ && b₁.eqv b₂
  | .getAttr e₁ a₁ _ _, .getAttr e₂ a₂ _ _ => e₁.eqv e₂ && a₁ == a₂
  | .hasAttr e₁ a₁ _ _, .hasAttr e₂ a₂ _ _ => e₁.eqv e₂ && a₁ == a₂
  | _, _ => false

/-- Number of nodes of an expression. -/
def Expr.size : Expr → Nat
  | .lit _ _ _ => 1
  | .var _ _ _ => 1
  | .ite c t e _ _ => c.size + t.size + e.size + 1
  | .and a b _ _ => a.size + b.size + 1
  | .or a b _ _ => a.size + b.size + 1
  | .binEq a b _ _ => a.size + b.size + 1
  | .getAttr e _ _ _ => e.size + 1
  | .hasAttr e _ _ _ => e.size + 1

/-- Modelled from the spec: a request environment (§3 `RequestEnv`), reduced
to the components the diagnostics consult.  An environment derived from an
action declared in the schema carries that action's UID; an environment for
an undeclared action carries none, in which case `action_entity_uid` returns
`none`. -/
structure RequestEnv where
  principal : String
  action : Option EntityUID
  resource : String
  contextTy : CType
deriving DecidableEq, Repr

/-- Accessor corresponding to `RequestEnv::action_entity_uid`. -/
def RequestEnv.action_entity_uid (env : RequestEnv) : Option EntityUID :=
  env.action

/-- Translation of `AttributeAccess` (validation_errors.rs): a failing
attribute access rooted at an entity LUB, at the `context` variable, or
elsewhere, with the accessed attribute names listed outermost first. -/
inductive AttributeAccess where
  | entityLUB (lub : EntityLUB) (attrs : List String)
  | context (action : EntityUID) (attrs : List String)
  | other (attrs : List String)
deriving DecidableEq, Repr

/-- Translation of the loop body of `AttributeAccess::from_expr`: `attrs` is
the accumulator of attribute names collected so far.  The Rust loop first
tests the type annotation for an entity type, then whether the expression is
the `context` variable, then walks into a `GetAttr`, and otherwise stops. -/
def AttributeAccess.fromExprLoop (env : RequestEnv) : Expr → List String → AttributeAccess
  | e, attrs =>
    match e, e.data with
    | _, some (.entity lub) => .entityLUB lub attrs
    | .var .context _ _, _ =>
      match env.action_entity_uid with
      | some act => .context act attrs
      | none => .other attrs
    | .getAttr sub a _ _, _ => AttributeAccess.fromExprLoop env sub (attrs ++ [a])
    | _, _ => .other attrs

/-- Translation of `AttributeAccess::from_expr`, reconstructing the access
path for the failing access `expr.attr`. -/
def AttributeAccess.from_expr (env : RequestEnv) (expr : Expr) (attr : String) :
    AttributeAccess :=
  AttributeAccess.fromExprLoop env expr [attr]

/-- Translation of `AttributeAccess::attrs`. -/
def AttributeAccess.attrs : AttributeAccess → List String
  | .entityLUB _ as => as
  | .context _ as => as
  | .other as => as

/-- Translation of `AttributeAccess::suggested_has_guard`. -/
def AttributeAccess.suggested_has_guard (acc : AttributeAccess) : String :=
  let base_expr : String :=
    match acc with
    | .context _ _ => "context"
    | _ => "e"
  let split : List String × String :=
    match acc.attrs with
    | first :: rest => (rest, first)
    | [] => ([], "f")
  let full_expr := String.intercalate "." (base_expr :: split.1.reverse)
  full_expr ++ " has " ++ split.2

/-- Translation of `impl Display for AttributeAccess`. -/
def AttributeAccess.message (acc : AttributeAccess) : String :=
  let attrs_str := String.intercalate "." acc.attrs.reverse
  match acc with
  | .entityLUB lub _ =>
    "`" ++ attrs_str ++ "` for entity type" ++
      (match lub.get_single_entity with
       | some single => " " ++ single
       | none => "s " ++ String.intercalate ", " lub.names)
  | .context act _ =>
    "`" ++ attrs_str ++ "` in context for " ++ act.render
  | .other _ =>
    "`" ++ attrs_str ++ "`"

section SanityChecks

/-- The request environment used by the unit tests in validation_errors.rs. -/
def testEnv : RequestEnv :=
  { principal := "Principal"
  , action := some ⟨"Action", "action"⟩
  , resource := "Resource"
  , contextTy := .record .nil false }

example :
    AttributeAccess.from_expr testEnv (.var .context none none) "foo" =
      .context ⟨"Action", "action"⟩ ["foo"] := by decide

example :
    (AttributeAccess.from_expr testEnv (.var .context none none) "foo").message =
      "`foo` in context for Action::\"action\"" := by decide

example :
    (AttributeAccess.from_expr testEnv
        (.getAttr (.var .context none none) "foo" none none) "bar").message =
      "`foo.bar` in context for Action::\"action\"" := by decide

example :
    (AttributeAccess.from_expr testEnv
        (.getAttr (.var .context none none) "foo" none none) "bar").suggested_has_guard =
      "context.foo has bar" := by decide

example :
    (AttributeAccess.from_expr testEnv
        (.lit (.entityUID ⟨"User", "alice"⟩) (some (.entity ⟨"User", []⟩)) none)
        "foo").message =
      "`foo` for entity type User" := by decide

example :
    (AttributeAccess.from_expr testEnv
        (.getAttr
          (.lit (.entityUID ⟨"User", "alice"⟩) (some (.entity ⟨"User", []⟩)) none)
          "foo" none none) "bar").suggested_has_guard =
      "e.foo has bar" := by decide

end SanityChecks

/-- Whether the expression's type annotation is an entity type. -/
def Expr.isEntityAnnotated (e : Expr) : Bool :=
  match e.data with
  | some (.entity _) => true
  | _ => false

/-- Whether the expression is the `context` variable. -/
def Expr.isContextVar : Expr → Bool
  | .var .context _ _ => true
  | _ => false

/-- Statement of the spec (§4.5 "Attribute-access reconstruction"): walking
outward from the failing access, the attribute names collected before the
walk stops.  The walk stops at the first sub-expression annotated with an
entity type, at the `context` variable, and at any node that is not an
attribute access; only the `GetAttr` case can continue, so only it can
contribute a name. -/
def specWalkNames : Expr → List String
  | e@(.getAttr sub a _ _) =>
      if e.isEntityAnnotated then [] else a :: specWalkNames sub
  | _ => []

/-- Statement of the spec (§4.5): the sub-expression at which the outward
walk stops. -/
def specWalkRoot : Expr → Expr
  | e@(.getAttr sub _ _ _) =>
      if e.isEntityAnnotated then e else specWalkRoot sub
  | e => e

/-- Statement of claim C1: how the stopping sub-expression is classified —
an entity-annotated stop yields `entityLUB` with its LUB, a stop at the
`context` variable yields `context` with the environment's action UID (or
`other` when the environment declares no action), and every other stop
yields `other`. -/
def specClassify (env : RequestEnv) (root : Expr) (names : List String) :
    AttributeAccess :=
  match root.data with
  | some (.entity lub) => .entityLUB lub names
  | _ =>
    if root.isContextVar then
      match env.action_entity_uid with
      | some act => .context act names
      | none => .other names
    else .other names

/-- Translation of `UnexpectedTypeHelp` (validation_errors.rs). -/
inductive UnexpectedTypeHelp where
  | TryUsingLike
  | TryUsingContains
  | TryUsingSingleContains
  | TryUsingHas
  | TryUsingIs
  | TryUsingIn
  | TypeTestNotSupported
  | ConcatenationNotSupported
  | SetOperationsNotSupported
deriving DecidableEq, Repr

/-- Translation of `LubHelp` (validation_errors.rs). -/
inductive LubHelp where
  | AttributeQualifier
  | RecordWidth
  | EntityType
  | EntityRecord
  | NoneHint
deriving DecidableEq, Repr

/-- Translation of `LubContext` (validation_errors.rs). -/
inductive LubContext where
  | Set
  | Conditional
  | Equality
  | Contains
  | ContainsAnyAll
deriving DecidableEq, Repr

/-- Translation of `cedar_policy_core::ast::CallStyle`. -/
inductive CallStyle where
  | MethodStyle
  | FunctionStyle
deriving DecidableEq, Repr

/-- Translation of `ValidationErrorKind` (validation_errors.rs): one
constructor per variant of the Rust enum, carrying the same payload fields
as the corresponding payload struct.  The deprecated `ImpossiblePolicy`
variant is present in the Rust enum and is therefore present here. -/
inductive ValidationErrorKind where
  | UnrecognizedEntityType (actual_entity_type : String)
      (suggested_entity_type : Option String)
  | UnrecognizedActionId (actual_action_id : String)
      (suggested_action_id : Option String)
  | InvalidActionApplication (would_in_fix_principal : Bool)
      (would_in_fix_resource : Bool)
  | UnspecifiedEntity (entity_id : String)
  | UnexpectedType (expected : List CType) (actual : CType)
      (help : Option UnexpectedTypeHelp)
  | IncompatibleTypes (types : List CType) (hint : LubHelp)
      (lubContext : LubContext)
  | UnsafeAttributeAccess (attribute_access : AttributeAccess)
      (suggestion : Option String) (may_exist : Bool)
  | UnsafeOptionalAttributeAccess (attribute_access : AttributeAccess)
  | ImpossiblePolicy
  | UndefinedFunction (name : String)
  | MultiplyDefinedFunction (name : String)
  | WrongNumberArguments (expected : Nat) (actual : Nat)
  | WrongCallStyle (expected : CallStyle) (actual : CallStyle)
  | FunctionArgumentValidation (msg : String)
  | EmptySetForbidden
  | NonLitExtConstructor
  | HierarchyNotRespected (in_lhs : Option String) (in_rhs : Option String)
deriving DecidableEq, Repr

/-- Membership in the sixteen error kinds listed by the spec's closed
taxonomy (§7): every variant of `ValidationErrorKind` except the deprecated
`ImpossiblePolicy`. -/
def isAmongSixteen : ValidationErrorKind → Bool
  | .UnrecognizedEntityType _ _ => true
  | .UnrecognizedActionId _ _ => true
  | .InvalidActionApplication _ _ => true
  | .UnspecifiedEntity _ => true
  | .UnexpectedType _ _ _ => true
  | .IncompatibleTypes _ _ _ => true
  | .UnsafeAttributeAccess _ _ _ => true
  | .UnsafeOptionalAttributeAccess _ => true
  | .ImpossiblePolicy => false
  | .UndefinedFunction _ => true
  | .MultiplyDefinedFunction _ => true
  | .WrongNumberArguments _ _ => true
  | .WrongCallStyle _ _ => true
  | .FunctionArgumentValidation _ => true
  | .EmptySetForbidden => true
  | .NonLitExtConstructor => true
  | .HierarchyNotRespected _ _ => true

/-- Translation of `impl Diagnostic for InvalidActionApplication::help`:
the help message as a function of the two payload flags. -/
def invalidActionApplicationHelp (would_in_fix_principal : Bool)
    (would_in_fix_resource : Bool) : Option String :=
  match would_in_fix_principal, would_in_fix_resource with
  | true, false => some "try replacing `==` with `in` in the principal clause"
  | false, true => some "try replacing `==` with `in` in the resource clause"
  | true, true =>
    some "try replacing `==` with `in` in the principal clause and the resource clause"
  | false, false => none

/-- Translation of `impl Diagnostic for UnsafeAttributeAccess::help`:
the help message as a function of the `suggestion` and `may_exist` payload
fields. -/
def attrAccessHelp (suggestion : Option String) (may_exist : Bool) :
    Option String :=
  match suggestion, may_exist with
  | some s, false => some ("did you mean `" ++ s ++ "`?")
  | none, true =>
    some "there may be additional attributes that the validator is not able to reason about"
  | some s, true =>
    some ("did you mean `" ++ s ++
      "`? (there may also be additional attributes that the validator is not able to reason about)")
  | none, false => none

/-- Translation of the `diagnostic(help(..))` attribute on
`UnsafeOptionalAttributeAccess`: the help message built from the suggested
`has` guard. -/
def optionalAttrAccessHelp (attribute_access : AttributeAccess) : String :=
  "try testing for the attribute with `" ++
    attribute_access.suggested_has_guard ++ " && ..`"

/-- Whether an optional message mentions the given text. -/
def strMentions (o : Option String) (pat : String) : Bool :=
  match o with
  | some m => decide (pat.data <:+: m.data)
  | none => false

/-- Translation of `TypeError` (validation_errors.rs): the stored expression,
the stored source location, and the error kind. -/
structure TypeError where
  on_expr : Option Expr
  source_loc : Option Loc
  kind : ValidationErrorKind
deriving Repr

/-- Equality on `Option Expr` under the syntactic expression equality
`Expr.eqv`. -/
def optExprEqv : Option Expr → Option Expr → Bool
  | none, none => true
  | some a, some b => a.eqv b
  | _, _ => false

/-- Translation of the derived `PartialEq` on `TypeError`: field-wise
comparison of `on_expr` (under syntactic expression equality), the stored
`source_loc`, and `kind`. -/
def TypeError.eq (a b : TypeError) : Bool :=
  optExprEqv a.on_expr b.on_expr && a.source_loc == b.source_loc &&
    a.kind == b.kind

/-- Translation of the public accessor `TypeError::source_loc`: the stored
location when present, otherwise the location embedded in `on_expr`. -/
def TypeError.sourceLoc (t : TypeError) : Option Loc :=
  match t.source_loc with
  | some loc => some loc
  | none => t.on_expr.bind Expr.source_loc

/-- Translation of `TypeError::kind_and_location`. -/
def TypeError.kind_and_location (t : TypeError) :
    ValidationErrorKind × Option Loc :=
  (t.kind, t.sourceLoc)

/-- Translation of `impl Diagnostic for TypeError::labels`: the underlined
span of the effective source location, when there is one. -/
def TypeError.labels (t : TypeError) : Option (Nat × Nat) :=
  t.sourceLoc.map (fun l => (l.start, l.length))

/-- Translation of `impl Diagnostic for TypeError::source_code`: the source
text of the effective source location, when there is one. -/
def TypeError.source_code (t : TypeError) : Option String :=
  t.sourceLoc.map Loc.src

/-- Lookup of an attribute declaration in an attribute map. -/
def CAttrs.lookup : CAttrs → String → Option (CType × Bool)
  | .nil, _ => none
  | .cons n ty req rest, a => if n = a then some (ty, req) else rest.lookup a

/-- Modelled from the spec: the schema's entity-type declarations, mapping an
entity type name to its attribute record (§6 Inputs). -/
def schemaAttrsOf (schema : List (String × CAttrs)) (ety : String) :
    Option CAttrs :=
  (schema.find? (fun p => p.1 == ety)).map Prod.snd

/-- Modelled from the spec: `attribute_type` on an entity LUB (§4.1) — the
result is defined only when every member type declares the attribute with
equal requiredness and equal type. -/
def lubAttrType (schema : List (String × CAttrs)) (lub : EntityLUB)
    (a : String) : Option (CType × Bool) :=
  match lub.names.map (fun n => (schemaAttrsOf schema n).bind (CAttrs.lookup · a)) with
  | [] => none
  | x :: xs => if x.isSome && xs.all (fun y => y == x) then x else none

/-- Modelled from the spec: `least_upper_bound` (§4.1) on the fragment of the
lattice exercised by the claims.  The record-record case (which requires
identical attribute name sets and optionality with attribute-wise LUBs) is
not reached by any claim and is conservatively mapped to failure. -/
def lubSpec : CType → CType → Option CType
  | .never, t => some t
  | t, .never => some t
  | .tTrue, .tTrue => some .tTrue
  | .tFalse, .tFalse => some .tFalse
  | .tTrue, .tFalse => some .boolean
  | .tFalse, .tTrue => some .boolean
  | .tTrue, .boolean => some .boolean
  | .boolean, .tTrue => some .boolean
  | .tFalse, .boolean => some .boolean
  | .boolean, .tFalse => some .boolean
  | .boolean, .boolean => some .boolean
  | .long, .long => some .long
  | .string, .string => some .string
  | .set a, .set b => (lubSpec a b).map .set
  | .entity a, .entity b => some (.entity (a.union b))
  | .actionEntity a, .actionEntity b => some (.actionEntity (a.union b))
  | .extType n, .extType m => if n = m then some (.extType n) else none
  | _, _ => none

/-- Whether a type is Boolean-compatible (a subtype of `Boolean`, §4.4). -/
def isBoolTy : CType → Bool
  | .tTrue => true
  | .tFalse => true
  | .boolean => true
  | .never => true
  | _ => false

/-- Modelled from the spec: the expression typechecker (§4.4), restricted to
the constructs reachable from scenario 3 of §8 — literals, variables,
attribute access, `has`, `==`, the boolean connectives and the conditional.
It returns the annotated expression and the list of errors (kinds) pushed,
in order.  Elided relative to the spec, none of it reachable in the claims
settled against this model: fuzzy "did you mean" suggestions, the
singleton-boolean folding of `&&`/`||`, outbound capability tracking (the
inbound capability set `caps` is consulted), and the LUB failure-reason
hints (reported as `NoneHint`). -/
def typecheckExpr (env : RequestEnv) (schema : List (String × CAttrs))
    (caps : List (Expr × String)) :
    Expr → (Expr × List ValidationErrorKind)
  | .lit p _ loc =>
    match p with
    | .bool true => (.lit p (some .tTrue) loc, [])
    | .bool false => (.lit p (some .tFalse) loc, [])
    | .int i => (.lit (.int i) (some .long) loc, [])
    | .string s => (.lit (.string s) (some .string) loc, [])
    | .entityUID u =>
      if (schemaAttrsOf schema u.ty).isSome then
        (.lit p (some (.entity ⟨u.ty, []⟩)) loc, [])
      else
        (.lit p (some (.entity ⟨u.ty, []⟩)) loc,
          [.UnrecognizedEntityType u.ty none])
  | .var v _ loc =>
    match v with
    | .principal => (.var v (some (.entity ⟨env.principal, []⟩)) loc, [])
    | .resource => (.var v (some (.entity ⟨env.resource, []⟩)) loc, [])
    | .action =>
      match env.action_entity_uid with
      | some u => (.var v (some (.actionEntity ⟨u.ty, []⟩)) loc, [])
      | none => (.var v (some .anyEntity) loc, [])
    | .context => (.var v (some env.contextTy) loc, [])
  | .getAttr e a _ loc =>
    let r := typecheckExpr env schema caps e
    match r.1.data with
    | some (.entity lub) =>
      (match lubAttrType schema lub a with
       | some (ty, true) => (.getAttr r.1 a (some ty) loc, r.2)
       | some (ty, false) =>
         if caps.any (fun c => c.1.eqv e && c.2 == a) then
           (.getAttr r.1 a (some ty) loc, r.2)
         else
           (.getAttr r.1 a (some ty) loc,
             r.2 ++ [.UnsafeOptionalAttributeAccess
               (AttributeAccess.from_expr env r.1 a)])
       | none =>
         (.getAttr r.1 a none loc,
           r.2 ++ [.UnsafeAttributeAccess
             (AttributeAccess.from_expr env r.1 a) none false]))
    | some (.record ras isOpen) =>
      (match ras.lookup a with
       | some (ty, true) => (.getAttr r.1 a (some ty) loc, r.2)
       | some (ty, false) =>
         if caps.any (fun c => c.1.eqv e && c.2 == a) then
           (.getAttr r.1 a (some ty) loc, r.2)
         else
           (.getAttr r.1 a (some ty) loc,
             r.2 ++ [.UnsafeOptionalAttributeAccess
               (AttributeAccess.from_expr env r.1 a)])
       | none =>
         (.getAttr r.1 a none loc,
           r.2 ++ [.UnsafeAttributeAccess
             (AttributeAccess.from_expr env r.1 a) none isOpen]))
    | other =>
      (.getAttr r.1 a none loc,
        r.2 ++ [.UnexpectedType [] (other.getD .never) none])
  | .hasAttr e a _ loc =>
    let r := typecheckExpr env schema caps e
    match r.1.data with
    | some (.entity lub) =>
      (match lubAttrType schema lub a with
       | some (_, true) => (.hasAttr r.1 a (some .tTrue) loc, r.2)
       | some (_, false) => (.hasAttr r.1 a (some .boolean) loc, r.2)
       | none => (.hasAttr r.1 a (some .boolean) loc, r.2))
    | some (.record ras isOpen) =>
      (match ras.lookup a with
       | some (_, true) => (.hasAttr r.1 a (some .tTrue) loc, r.2)
       | some (_, false) => (.hasAttr r.1 a (some .boolean) loc, r.2)
       | none =>
         if isOpen then (.hasAttr r.1 a (some .boolean) loc, r.2)
         else (.hasAttr r.1 a (some .tFalse) loc, r.2))
    | other =>
      (.hasAttr r.1 a (some .boolean) loc,
        r.2 ++ [.UnexpectedType [] (other.getD .never) (some .TryUsingHas)])
  | .and a b _ loc =>
    let ra := typecheckExpr env schema caps a
    let rb := typecheckExpr env schema caps b
    let errTy := fun (t : Option CType) =>
      if isBoolTy (t.getD .never) then ([] : List ValidationErrorKind)
      else [.UnexpectedType [.boolean] (t.getD .never) none]
    (.and ra.1 rb.1 (some .boolean) loc,
      ra.2 ++ rb.2 ++ errTy ra.1.data ++ errTy rb.1.data)
  | .or a b _ loc =>
    let ra := typecheckExpr env schema caps a
    let rb := typecheckExpr env schema caps b
    let errTy := fun (t : Option CType) =>
      if isBoolTy (t.getD .never) then ([] : List ValidationErrorKind)
      else [.UnexpectedType [.boolean] (t.getD .never) none]
    (.or ra.1 rb.1 (some .boolean) loc,
      ra.2 ++ rb.2 ++ errTy ra.1.data ++ errTy rb.1.data)
  | .binEq a b _ loc =>
    let ra := typecheckExpr env schema caps a
    let rb := typecheckExpr env schema caps b
    match lubSpec (ra.1.data.getD .never) (rb.1.data.getD .never) with
    | some _ => (.binEq ra.1 rb.1 (some .boolean) loc, ra.2 ++ rb.2)
    | none =>
      (.binEq ra.1 rb.1 (some .boolean) loc,
        ra.2 ++ rb.2 ++ [.IncompatibleTypes
          [ra.1.data.getD .never, rb.1.data.getD .never] .NoneHint .Equality])
  | .ite c t e _ loc =>
    let rc := typecheckExpr env schema caps c
    let rt := typecheckExpr env schema caps t
    let re := typecheckExpr env schema caps e
    let condErr :=
      if isBoolTy (rc.1.data.getD .never) then ([] : List ValidationErrorKind)
      else [.UnexpectedType [.boolean] (rc.1.data.getD .never) none]
    match rc.1.data with
    | some .tTrue => (.ite rc.1 rt.1 re.1 rt.1.data loc, rc.2 ++ condErr ++ rt.2)
    | some .tFalse => (.ite rc.1 rt.1 re.1 re.1.data loc, rc.2 ++ condErr ++ re.2)
    | _ =>
      match lubSpec (rt.1.data.getD .never) (re.1.data.getD .never) with
      | some ty => (.ite rc.1 rt.1 re.1 (some ty) loc, rc.2 ++ condErr ++ rt.2 ++ re.2)
      | none =>
        (.ite rc.1 rt.1 re.1 none loc,
          rc.2 ++ condErr ++ rt.2 ++ re.2 ++ [.IncompatibleTypes
            [rt.1.data.getD .never, re.1.data.getD .never] .NoneHint .Conditional])

/-- Scenario 3 of §8: the schema declares the entity type `User` with the
optional attribute `nickname : String`. -/
def scenarioSchema : List (String × CAttrs) :=
  [("User", .cons "nickname" .string false .nil)]

/-- Scenario 3 of §8: a request environment whose principal type is `User`. -/
def scenarioEnv : RequestEnv :=
  { principal := "User"
  , action := some ⟨"Action", "view"⟩
  , resource := "Photo"
  , contextTy := .record .nil false }

/-- Scenario 3 of §8: the condition `principal.nickname == "bob"`. -/
def scenarioPolicy : Expr :=
  .binEq (.getAttr (.var .principal none none) "nickname" none none)
    (.lit (.string "bob") none none) none none

/-- Typechecking scenario 3 under its single request environment, with an
empty inbound capability set. -/
def scenarioResult : Expr × List ValidationErrorKind :=
  typecheckExpr scenarioEnv scenarioSchema [] scenarioPolicy

/-- Whether the access is rooted at the `context` variable. -/
def isContextRooted : AttributeAccess → Bool
  | .context _ _ => true
  | _ => false

/-! ## Helper lemmas -/

theorem strAppendSplit (a : String) {lit l₁ l₂ : String} (h : lit = l₁ ++ l₂)
    (x : String) : (a ++ lit) ++ x = (a ++ l₁) ++ (l₂ ++ x) := by
  rw [h, String.append_assoc, String.append_assoc, String.append_assoc]

theorem infixExtendLeft {p l₂ : List Char} (l₁ : List Char) (h : p <:+: l₂) :
    p <:+: l₁ ++ l₂ :=
  h.trans (List.suffix_append l₁ l₂).isInfix

theorem specClassify_attrs (env : RequestEnv) (root : Expr)
    (names : List String) : (specClassify env root names).attrs = names := by
  unfold specClassify
  split
  · rfl
  · split
    · split <;> rfl
    · rfl

theorem fromExprLoop_spec (env : RequestEnv) :
    ∀ (e : Expr) (attrs : List String),
      AttributeAccess.fromExprLoop env e attrs =
        specClassify env (specWalkRoot e) (attrs ++ specWalkNames e) := by
  intro e
  induction e with
  | lit p d l =>
    intro attrs
    rcases d with _ | ct
    · simp [AttributeAccess.fromExprLoop, specWalkNames, specWalkRoot,
        specClassify, Expr.data, Expr.isContextVar]
    · cases ct <;>
        simp [AttributeAccess.fromExprLoop, specWalkNames, specWalkRoot,
          specClassify, Expr.data, Expr.isContextVar]
  | var v d l =>
    intro attrs
    rcases d with _ | ct
    · cases v <;>
        simp [AttributeAccess.fromExprLoop, specWalkNames, specWalkRoot,
          specClassify, Expr.data, Expr.isContextVar,
          RequestEnv.action_entity_uid]
    · cases ct <;> cases v <;>
        simp [AttributeAccess.fromExprLoop, specWalkNames, specWalkRoot,
          specClassify, Expr.data, Expr.isContextVar,
          RequestEnv.action_entity_uid]
  | ite c t e d l ihc iht ihe =>
    intro attrs
    rcases d with _ | ct
    · simp [AttributeAccess.fromExprLoop, specWalkNames, specWalkRoot,
        specClassify, Expr.data, Expr.isContextVar]
    · cases ct <;>
        simp [AttributeAccess.fromExprLoop, specWalkNames, specWalkRoot,
          specClassify, Expr.data, Expr.isContextVar]
  | and a b d l iha ihb =>
    intro attrs
    rcases d with _ | ct
    · simp [AttributeAccess.fromExprLoop, specWalkNames, specWalkRoot,
        specClassify, Expr.data, Expr.isContextVar]
    · cases ct <;>
        simp [AttributeAccess.fromExprLoop, specWalkNames, specWalkRoot,
          specClassify, Expr.data, Expr.isContextVar]
  | or a b d l iha ihb =>
    intro attrs
    rcases d with _ | ct
    · simp [AttributeAccess.fromExprLoop, specWalkNames, specWalkRoot,
        specClassify, Expr.data, Expr.isContextVar]
    · cases ct <;>
        simp [AttributeAccess.fromExprLoop, specWalkNames, specWalkRoot,
          specClassify, Expr.data, Expr.isContextVar]
  | binEq a b d l iha ihb =>
    intro attrs
    rcases d with _ | ct
    · simp [AttributeAccess.fromExprLoop, specWalkNames, specWalkRoot,
        specClassify, Expr.data, Expr.isContextVar]
    · cases ct <;>
        simp [AttributeAccess.fromExprLoop, specWalkNames, specWalkRoot,
          specClassify, Expr.data, Expr.isContextVar]
  | getAttr sub a d l ih =>
    intro attrs
    rcases d with _ | ct
    · simp [AttributeAccess.fromExprLoop, specWalkNames, specWalkRoot,
        Expr.isEntityAnnotated, Expr.data, ih]
    · cases ct <;>
        simp [AttributeAccess.fromExprLoop, specWalkNames, specWalkRoot,
          specClassify, Expr.isEntityAnnotated, Expr.data, ih]
  | hasAttr e a d l ih =>
    intro attrs
    rcases d with _ | ct
    · simp [AttributeAccess.fromExprLoop, specWalkNames, specWalkRoot,
        specClassify, Expr.data, Expr.isContextVar]
    · cases ct <;>
        simp [AttributeAccess.fromExprLoop, specWalkNames, specWalkRoot,
          specClassify, Expr.data, Expr.isContextVar]

theorem message_shape (acc : AttributeAccess) :
    ∃ tail, acc.message =
      "`" ++ String.intercalate "." acc.attrs.reverse ++ "`" ++ tail := by
  cases acc with
  | entityLUB lub as =>
    refine ⟨" for entity type" ++
      (match lub.get_single_entity with
       | some single => " " ++ single
       | none => "s " ++ String.intercalate ", " lub.names), ?_⟩
    show ("`" ++ String.intercalate "." as.reverse ++ "` for entity type") ++ _ = _
    rw [strAppendSplit _ (show ("` for entity type" : String) = "`" ++ " for entity type" from rfl)]
    rfl
  | context act as =>
    refine ⟨" in context for " ++ act.render, ?_⟩
    show ("`" ++ String.intercalate "." as.reverse ++ "` in context for ") ++ _ = _
    rw [strAppendSplit _
      (show ("` in context for " : String) = "`" ++ " in context for " from rfl)]
    rfl
  | other as =>
    exact ⟨"", (String.append_empty _).symm⟩

theorem specWalkNames_length_le : ∀ e : Expr, (specWalkNames e).length ≤ e.size := by
  intro e
  induction e with
  | getAttr sub a d l ih =>
    by_cases hE : (Expr.getAttr sub a d l).isEntityAnnotated <;>
      simp [specWalkNames, hE, Expr.size] ; omega
  | lit p d l => simp [specWalkNames, Expr.size]
  | var v d l => simp [specWalkNames, Expr.size]
  | ite c t e d l ihc iht ihe => simp [specWalkNames, Expr.size]
  | and a b d l iha ihb => simp [specWalkNames, Expr.size]
  | or a b d l iha ihb => simp [specWalkNames, Expr.size]
  | binEq a b d l iha ihb => simp [specWalkNames, Expr.size]
  | hasAttr e a d l ih => simp [specWalkNames, Expr.size]

/-! ## Claim theorems -/

/-- C1: for every failing attribute access `e.attr` and request environment,
`AttributeAccess::from_expr` collects the chain of attribute names outermost
first and classifies the stopping sub-expression — the first entity-annotated
node yields `entityLUB` with that LUB, the `context` variable yields
`context` with the environment's action UID (`other` when the environment
declares no action), and everything else yields `other`; and the
human-readable message renders the collected names innermost first, joined
by dots. -/
theorem from_expr_walk_characterization (env : RequestEnv) (e : Expr)
    (attr : String) :
    AttributeAccess.from_expr env e attr =
      specClassify env (specWalkRoot e) (attr :: specWalkNames e) ∧
    ∃ tail, (AttributeAccess.from_expr env e attr).message =
      "`" ++ String.intercalate "." ((attr :: specWalkNames e).reverse) ++
        "`" ++ tail := by
  have h1 : AttributeAccess.from_expr env e attr =
      specClassify env (specWalkRoot e) (attr :: specWalkNames e) := by
    have h := fromExprLoop_spec env e [attr]
    simpa [AttributeAccess.from_expr] using h
  refine ⟨h1, ?_⟩
  obtain ⟨tail, ht⟩ := message_shape (AttributeAccess.from_expr env e attr)
  refine ⟨tail, ?_⟩
  rw [ht, h1, specClassify_attrs]

/-- C2: for an access with a non-empty attribute list, the suggested `has`
guard is `<prefix> has <attr>` where `<attr>` is the outermost (failing)
attribute, and `<prefix>` starts from `context` for a context-rooted access
and from the placeholder `e` otherwise, followed by the remaining inner
attribute names innermost first, joined by dots. -/
theorem suggested_has_guard_nonempty (acc : AttributeAccess) (a : String)
    (rest : List String) (h : acc.attrs = a :: rest) :
    acc.suggested_has_guard =
      String.intercalate "."
        ((if isContextRooted acc then "context" else "e") :: rest.reverse) ++
      " has " ++ a := by
  cases acc with
  | entityLUB lub as =>
    simp only [AttributeAccess.attrs] at h
    subst h
    simp [AttributeAccess.suggested_has_guard, AttributeAccess.attrs,
      isContextRooted]
  | context act as =>
    simp only [AttributeAccess.attrs] at h
    subst h
    simp [AttributeAccess.suggested_has_guard, AttributeAccess.attrs,
      isContextRooted]
  | other as =>
    simp only [AttributeAccess.attrs] at h
    subst h
    simp [AttributeAccess.suggested_has_guard, AttributeAccess.attrs,
      isContextRooted]

/-- Witness for C2: the context-rooted access `context.foo.bar` failing at
`bar` yields the guard `context.foo has bar`. -/
theorem suggested_has_guard_nonempty_witness :
    (AttributeAccess.context ⟨"Action", "action"⟩ ["bar", "foo"]).suggested_has_guard =
      "context.foo has bar" :=
  (suggested_has_guard_nonempty (.context ⟨"Action", "action"⟩ ["bar", "foo"])
    "bar" ["foo"] rfl).trans (by decide)

/-- C3 counterexample: typechecking scenario 3 (`principal.nickname ==
"bob"` with `User.nickname` optional) produces a single
`UnsafeOptionalAttributeAccess` whose rendered help text is not the
claimed ``try testing for the attribute with `principal has nickname &&
..```. -/
theorem scenario3_help_counterexample :
    ∃ acc, scenarioResult.2 =
        [ValidationErrorKind.UnsafeOptionalAttributeAccess acc] ∧
      optionalAttrAccessHelp acc ≠
        "try testing for the attribute with `principal has nickname && ..`" :=
  ⟨.entityLUB ⟨"User", []⟩ ["nickname"], by decide, by decide⟩

/-- C3 (amended): typechecking scenario 3 produces exactly one
`UnsafeOptionalAttributeAccess` error, and its help text is ``try testing
for the attribute with `e has nickname && ..``` — the guard for an access
rooted at an entity uses the placeholder `e`, not `principal`. -/
theorem scenario3_one_error_and_help :
    scenarioResult.2 =
      [.UnsafeOptionalAttributeAccess (.entityLUB ⟨"User", []⟩ ["nickname"])] ∧
    optionalAttrAccessHelp (.entityLUB ⟨"User", []⟩ ["nickname"]) =
      "try testing for the attribute with `e has nickname && ..`" ∧
    (AttributeAccess.entityLUB ⟨"User", []⟩ ["nickname"]).suggested_has_guard =
      "e has nickname" := by
  refine ⟨by decide, by decide, by decide⟩

/-- C4 counterexample: two type errors with the same kind and the same
stored and effective source location that are nevertheless not equal,
because their stored `on_expr` expressions differ — so equality is not
keyed by `(kind, location)` alone. -/
theorem typeError_eq_counterexample :
    ({ on_expr := some (.var .principal none (some ⟨0, 5, "policy0"⟩))
     , source_loc := none
     , kind := .UndefinedFunction "ip" } : TypeError).kind =
      ({ on_expr := some (.var .resource none (some ⟨0, 5, "policy0"⟩))
       , source_loc := none
       , kind := .UndefinedFunction "ip" } : TypeError).kind ∧
    ({ on_expr := some (.var .principal none (some ⟨0, 5, "policy0"⟩))
     , source_loc := none
     , kind := .UndefinedFunction "ip" } : TypeError).sourceLoc =
      some ⟨0, 5, "policy0"⟩ ∧
    ({ on_expr := some (.var .resource none (some ⟨0, 5, "policy0"⟩))
     , source_loc := none
     , kind := .UndefinedFunction "ip" } : TypeError).sourceLoc =
      some ⟨0, 5, "policy0"⟩ ∧
    TypeError.eq
      { on_expr := some (.var .principal none (some ⟨0, 5, "policy0"⟩))
      , source_loc := none
      , kind := .UndefinedFunction "ip" }
      { on_expr := some (.var .resource none (some ⟨0, 5, "policy0"⟩))
      , source_loc := none
      , kind := .UndefinedFunction "ip" } = false :=
  ⟨rfl, rfl, rfl, by decide⟩

/-- C4 (amended): two `TypeError` values are equal exactly when they agree
field-wise — on the stored expression (compared syntactically), on the
stored source location, and on the kind; agreement on kind and location
alone does not suffice. -/
theorem typeError_eq_characterization (a b : TypeError) :
    TypeError.eq a b = true ↔
      (optExprEqv a.on_expr b.on_expr = true ∧ a.source_loc = b.source_loc ∧
        a.kind = b.kind) := by
  simp [TypeError.eq, Bool.and_eq_true, and_assoc]

/-- Witness for C4: the characterization applied to a concrete pair of equal
errors. -/
theorem typeError_eq_characterization_witness :
    TypeError.eq ⟨none, none, .EmptySetForbidden⟩
      ⟨none, none, .EmptySetForbidden⟩ = true :=
  (typeError_eq_characterization _ _).mpr ⟨by decide, rfl, rfl⟩

/-- C5 counterexample: the kind enumeration is not exactly the sixteen
listed kinds — the (deprecated) `ImpossiblePolicy` variant is also a
`ValidationErrorKind`. -/
theorem errorKind_taxonomy_counterexample :
    ¬ ∀ k : ValidationErrorKind, isAmongSixteen k = true :=
  fun h => absurd (h .ImpossiblePolicy) (by decide)

/-- C5 (amended): the kind enumeration is closed and consists of exactly the
sixteen listed kinds plus the deprecated `ImpossiblePolicy` variant, which
is documented as being a warning rather than an error but remains a variant
of the enum. -/
theorem errorKind_taxonomy_closed (k : ValidationErrorKind) :
    isAmongSixteen k = true ∨ k = .ImpossiblePolicy := by
  cases k <;> simp [isAmongSixteen]

/-- C6: the `InvalidActionApplication` help message is present exactly when
one of the two payload flags is set, and it suggests replacing `==` by `in`
in the principal clause exactly when `would_in_fix_principal` is set and in
the resource clause exactly when `would_in_fix_resource` is set. -/
theorem invalidActionApplication_help_characterization (p r : Bool) :
    (invalidActionApplicationHelp p r).isSome = (p || r) ∧
    strMentions (invalidActionApplicationHelp p r) "the principal clause" = p ∧
    strMentions (invalidActionApplicationHelp p r) "the resource clause" = r := by
  cases p <;> cases r <;> exact ⟨rfl, by decide, by decide⟩

/-- C7: the `UnsafeAttributeAccess` help message is a function of the
`suggestion` and `may_exist` payload fields alone: it is absent exactly when
there is no suggestion and `may_exist` is false, it leads with ``did you
mean `s`?`` exactly when the suggestion is `s`, and it mentions possible
additional attributes exactly when `may_exist` is set. -/
theorem attrAccessHelp_characterization (sugg : Option String) (me : Bool) :
    (attrAccessHelp sugg me).isSome = (sugg.isSome || me) ∧
    (∀ s, sugg = some s → ∃ rest,
      attrAccessHelp sugg me = some (("did you mean `" ++ s ++ "`?") ++ rest)) ∧
    (sugg = none → strMentions (attrAccessHelp sugg me) "did you mean" = false) ∧
    (me = true → strMentions (attrAccessHelp sugg me) "additional attributes" = true) ∧
    (me = false → ∀ s, sugg = some s →
      attrAccessHelp sugg me = some ("did you mean `" ++ s ++ "`?")) := by
  rcases sugg with _ | s <;> cases me
  · refine ⟨rfl, ?_, ?_, ?_, ?_⟩
    · intro s hs; simp at hs
    · intro _; rfl
    · intro h; simp at h
    · intro _ s hs; simp at hs
  · refine ⟨rfl, ?_, ?_, ?_, ?_⟩
    · intro s hs; simp at hs
    · intro _; decide
    · intro _; decide
    · intro h; simp at h
  · refine ⟨rfl, ?_, ?_, ?_, ?_⟩
    · intro s' hs
      rw [← Option.some.inj hs]
      exact ⟨"", congrArg some (String.append_empty _).symm⟩
    · intro h; simp at h
    · intro h; simp at h
    · intro _ s' hs
      rw [← Option.some.inj hs]
      rfl
  · refine ⟨rfl, ?_, ?_, ?_, ?_⟩
    · intro s' hs
      rw [← Option.some.inj hs]
      refine ⟨" (there may also be additional attributes that the validator is not able to reason about)", ?_⟩
      apply congrArg some
      have h2 : (("did you mean `" ++ s) ++ "`?") ++
          " (there may also be additional attributes that the validator is not able to reason about)" =
          ("did you mean `" ++ s) ++ ("`?" ++
            " (there may also be additional attributes that the validator is not able to reason about)") :=
        String.append_assoc _ _ _
      rw [h2]
      exact congrArg (("did you mean `" ++ s) ++ ·) rfl
    · intro h; simp at h
    · intro _
      simp only [attrAccessHelp, strMentions]
      apply decide_eq_true
      rw [String.data_append]
      exact infixExtendLeft _ (by decide)
    · intro h; simp at h

/-- Witness for C7: at the concrete payload `(some "age", true)` the help is
present and leads with ``did you mean `age`?``. -/
theorem attrAccessHelp_characterization_witness :
    ∃ rest, attrAccessHelp (some "age") true =
      some (("did you mean `" ++ "age" ++ "`?") ++ rest) :=
  (attrAccessHelp_characterization (some "age") true).2.1 "age" rfl

/-- C8: the `TypeError::source_loc` accessor returns the stored location
when present, otherwise the location embedded in the stored `on_expr` when
that expression is present, otherwise nothing; `kind_and_location` pairs the
kind with exactly this location, and the rendered diagnostic's label span
and source code are derived from it. -/
theorem typeError_sourceLoc_characterization (t : TypeError) :
    (∀ l, t.source_loc = some l → t.sourceLoc = some l) ∧
    (t.source_loc = none → ∀ e, t.on_expr = some e → t.sourceLoc = e.source_loc) ∧
    (t.source_loc = none → t.on_expr = none → t.sourceLoc = none) ∧
    t.kind_and_location = (t.kind, t.sourceLoc) ∧
    t.labels = t.sourceLoc.map (fun l => (l.start, l.length)) ∧
    t.source_code = t.sourceLoc.map Loc.src := by
  refine ⟨?_, ?_, ?_, rfl, rfl, rfl⟩
  · intro l h; simp [TypeError.sourceLoc, h]
  · intro h e he; simp [TypeError.sourceLoc, h, he]
  · intro h he; simp [TypeError.sourceLoc, h, he]

/-- Witness for C8: a stored location takes precedence at a concrete
error. -/
theorem typeError_sourceLoc_characterization_witness :
    (TypeError.mk none (some ⟨2, 3, "srcA"⟩) .EmptySetForbidden).sourceLoc =
      some ⟨2, 3, "srcA"⟩ :=
  (typeError_sourceLoc_characterization _).1 _ rfl

/-- C9: `suggested_has_guard` is total; on an access with an empty attribute
list it falls back to the placeholder attribute `f`, yielding
`context has f` for a context-rooted access and `e has f` otherwise. -/
theorem suggested_has_guard_empty (acc : AttributeAccess)
    (h : acc.attrs = []) :
    acc.suggested_has_guard =
      if isContextRooted acc then "context has f" else "e has f" := by
  cases acc <;> simp only [AttributeAccess.attrs] at h <;> subst h <;> rfl

/-- Witness for C9: the empty non-context access yields `e has f`. -/
theorem suggested_has_guard_empty_witness :
    (AttributeAccess.other []).suggested_has_guard = "e has f" :=
  (suggested_has_guard_empty (.other []) rfl).trans (by decide)

/-- C10: the walk of `AttributeAccess::from_expr` terminates on every finite
expression: it only ever continues on the strict sub-expression of a
`GetAttr` node, so the number of attribute names it collects is bounded by
the size of the expression. -/
theorem from_expr_walk_bounded (env : RequestEnv) (e : Expr) (attr : String) :
    (AttributeAccess.from_expr env e attr).attrs.length ≤ 1 + e.size := by
  have h1 : AttributeAccess.from_expr env e attr =
      specClassify env (specWalkRoot e) (attr :: specWalkNames e) := by
    have h := fromExprLoop_spec env e [attr]
    simpa [AttributeAccess.from_expr] using h
  rw [h1, specClassify_attrs]
  have h2 := specWalkNames_length_le e
  simp only [List.length_cons]
  omega

end CedarDiag
